import Mathlib

/-!
Verification of the Common Lisp backend of the Thrift compiler
(`compiler/cpp/src/generate/t_cl_generator.cc`).

The AST consumed by the generator (`t_program`, `t_type`, `t_field`,
`t_const_value`, `t_function`) is defined elsewhere in the compiler; it is
modelled here from the specification's data model (§3).  Every emission
function below is a direct transcription of the corresponding C++ member
function of `t_cl_generator`.
-/

namespace ThriftCl

/-- Modelled from the spec: a `t_program` carries a name and a per-target
language namespace annotation (mapping language-tag → namespace string);
`get_namespace` yields the empty string when no namespace was declared for
the tag. -/
structure Program where
  pname : String
  namespaces : List (String × String)
deriving DecidableEq, Repr

/-- Modelled from the spec: `t_program::get_namespace(lang)` looks the tag up
in the annotation map, yielding `""` when absent. -/
def Program.get_namespace (p : Program) (lang : String) : String :=
  (p.namespaces.lookup lang).getD ""

/-- The seven base-type kinds of `t_base_type::t_base` handled by the
generator (`TYPE_VOID` never reaches constant rendering). -/
inductive TBase where
  | TBool | TByte | TI16 | TI32 | TI64 | TDouble | TString
deriving DecidableEq, Repr

/-- Modelled from the spec: base types map to fixed literal type-name tokens,
one per base kind (the names carried by the global `t_base_type` singletons). -/
def base_name : TBase → String
  | .TBool => "bool"
  | .TByte => "byte"
  | .TI16 => "i16"
  | .TI32 => "i32"
  | .TI64 => "i64"
  | .TDouble => "double"
  | .TString => "string"

/-- Modelled from the spec: `t_const_value` is a tagged variant —
`Integer`, `Double`, `Str`, an ordered `List` of values, and an ordered
`Map` of (key,value) pairs (insertion order of the literal); the map form is
reused for struct-literal field assignments.  A `double` value is carried
together with its printed representation, since the generator only ever
copies that rendering to the output. -/
inductive CV where
  | integer (i : Int)
  | double (printed : String)
  | string (s : String)
  | list (xs : List CV)
  | map (pairs : List (CV × CV))

/-- The failures `render_const_value` can raise: a literal whose variant does
not match what the declared type requires, and a struct-literal key naming no
field (`"type error: <type> has no field <key>"` in the C++ source). -/
inductive RenderError where
  | ConstantShapeError
  | UnknownFieldError (typeName : String) (fieldName : String)
deriving DecidableEq, Repr

/-- Modelled from the spec: `t_const_value::get_integer`, available exactly on
the `Integer` variant; any other variant is a shape mismatch. -/
def CV.get_integer : CV → Except RenderError Int
  | .integer i => .ok i
  | _ => .error .ConstantShapeError

/-- Modelled from the spec: `t_const_value::get_string`, available exactly on
the `Str` variant. -/
def CV.get_string : CV → Except RenderError String
  | .string s => .ok s
  | _ => .error .ConstantShapeError

/-- Modelled from the spec: `t_const_value::get_double`, available exactly on
the `Double` variant; yields the printed representation of the value. -/
def CV.get_double : CV → Except RenderError String
  | .double d => .ok d
  | _ => .error .ConstantShapeError

/-- `value->get_type() == t_const_value::CV_INTEGER`. -/
def CV.isInteger : CV → Bool
  | .integer _ => true
  | _ => false

mutual
/-- Modelled from the spec: the `t_type` variant — base types, enums (ordered
(label, optional explicit value) pairs), structs/exceptions (ordered field
list, with a flag separating `is_struct` from `is_xception`), containers, and
typedefs whose chains terminate in a non-typedef type.  Named user types
carry their declaring program (`t_type::get_program`), `none` standing for
the C++ `NULL`. -/
inductive TType where
  | base : TBase → TType
  | enum' : Option Program → String → List (String × Option Int) → TType
  | struct' : Option Program → String → List TField → Bool → TType
  | list : TType → TType
  | set : TType → TType
  | map : TType → TType → TType
  | typedef : Option Program → String → TType → TType

/-- Modelled from the spec: a `t_field` — name, numeric id (`get_key`),
declared type, optional default constant value, optional doc string. -/
inductive TField where
  | mk : String → Int → TType → Option CV → Option String → TField
end

def TField.fname : TField → String
  | .mk n _ _ _ _ => n

def TField.fid : TField → Int
  | .mk _ i _ _ _ => i

def TField.ftype : TField → TType
  | .mk _ _ t _ _ => t

def TField.fdefault : TField → Option CV
  | .mk _ _ _ d _ => d

def TField.fdoc : TField → Option String
  | .mk _ _ _ _ d => d

/-- `t_type::get_name()`: base types answer their fixed token, named types
their declared name, containers the empty string. -/
def TType.tname : TType → String
  | .base b => base_name b
  | .enum' _ n _ => n
  | .struct' _ n _ _ => n
  | .typedef _ n _ => n
  | .list _ => ""
  | .set _ => ""
  | .map _ _ => ""

/-- `t_type::get_program()`: named user types carry their declaring program;
base types and containers carry none. -/
def TType.prog : TType → Option Program
  | .enum' p _ _ => p
  | .struct' p _ _ _ => p
  | .typedef p _ _ => p
  | _ => none

/-- `ttype->is_struct() || ttype->is_xception()`. -/
def TType.isStructLike : TType → Bool
  | .struct' _ _ _ _ => true
  | _ => false

/-- Modelled from the spec: `get_true_type` resolves a typedef chain to its
first non-typedef variant. -/
def get_true_type : TType → TType
  | .typedef _ _ u => get_true_type u
  | t => t

/-- `t_generator::lowercase`. -/
def lowercase (s : String) : String := s.toLower

/-- `t_cl_generator::prefix(symbol)`: wrap a symbol in double quotes. -/
def quoted (symbol : String) : String := "\"" ++ symbol ++ "\""

/-- Modelled from the spec: `t_generator::indent()` — two spaces per nesting
level, presentation only. -/
def indentStr : Nat → String
  | 0 => ""
  | n + 1 => indentStr n ++ "  "

/-- `t_cl_generator::package_of(program)`: the program's `cl` namespace, or
the fixed default `"thrift-generated"` when none was declared. -/
def package_of (program : Program) : String :=
  let pfx := program.get_namespace "cl"
  if pfx = "" then "thrift-generated" else pfx

/-- The namespace qualifier computed at the head of
`t_cl_generator::type_name`: a foreign program with a distinct package
contributes `<package>:`, everything else contributes nothing.
`P` is the program being generated (`program_`). -/
def tn_qualifier (P : Program) (t : TType) : String :=
  match t.prog with
  | some program =>
      if program ≠ P then
        (if package_of program = package_of P then "" else package_of program ++ ":")
      else ""
  | none => ""

/-- `t_cl_generator::type_name(ttype)`: qualifier plus the type's name,
lowercased for structs and exceptions. -/
def type_name (P : Program) (t : TType) : String :=
  tn_qualifier P t ++ (if t.isStructLike then lowercase t.tname else t.tname)

/-- `t_cl_generator::typespec(t)`: resolve typedefs to the true type, then
dispatch on the variant. -/
def typespec (P : Program) : TType → String
  | .typedef _ _ u => typespec P u
  | .base b => type_name P (.base b)
  | .map k v => "(map " ++ typespec P k ++ " " ++ typespec P v ++ ")"
  | .struct' p n fl isX => "(struct " ++ quoted (type_name P (.struct' p n fl isX)) ++ ")"
  | .list e => "(list " ++ typespec P e ++ ")"
  | .set e => "(set " ++ typespec P e ++ ")"
  | .enum' _ n _ => "(enum \"" ++ n ++ "\")"

/-- The field lookup inside the struct branch of `render_const_value`: scan
all fields, remembering the type of every field whose name equals the key
(the last match wins, as in the C++ loop without `break`). -/
def find_field_type (fields : List TField) (key : String) : Option TType :=
  fields.foldl (fun acc f => if f.fname = key then some f.ftype else acc) none

mutual
/-- `t_cl_generator::render_const_value(type, value)`: resolve the declared
type, then emit the literal.  `ind` is the generator's indentation level on
entry. -/
def render_const_value (P : Program) (ind : Nat) : TType → CV → Except RenderError String
  | .typedef _ _ u, value => render_const_value P ind u value
  | .base b, value =>
      match b with
      | .TString => do pure ("\"" ++ (← value.get_string) ++ "\"")
      | .TBool => do pure (if (← value.get_integer) > 0 then "t" else "nil")
      | .TByte => do pure (toString (← value.get_integer))
      | .TI16 => do pure (toString (← value.get_integer))
      | .TI32 => do pure (toString (← value.get_integer))
      | .TI64 => do pure (toString (← value.get_integer))
      | .TDouble =>
          if value.isInteger then do pure (toString (← value.get_integer))
          else do pure (← value.get_double)
  | .enum' _ _ _, value => do pure (indentStr ind ++ toString (← value.get_integer))
  | .struct' _ name fields isX, value =>
      match value with
      | .map pairs => do
          let body ← render_struct_entries P (ind + 1) name fields pairs
          pure ((if isX then "(make-exception '" else "(make-instance '") ++
                lowercase name ++ " \n" ++ body ++ indentStr (ind + 1) ++ ")")
      | _ => .error .ConstantShapeError
  | .map ktype vtype, value =>
      match value with
      | .map pairs => do
          let body ← render_map_entries P (ind + 1) ktype vtype pairs
          pure ("(thrift:map " ++ body ++ indentStr ind ++ ")")
      | _ => .error .ConstantShapeError
  | .list etype, value =>
      match value with
      | .list xs => do
          let body ← render_list_entries P (ind + 2) etype xs
          pure ("(thrift:list\n" ++ body ++ indentStr (ind + 2) ++ ")")
      | _ => .error .ConstantShapeError
  | .set etype, value =>
      match value with
      | .list xs => do
          let body ← render_list_entries P (ind + 2) etype xs
          pure ("(thrift:set\n" ++ body ++ indentStr (ind + 2) ++ ")")
      | _ => .error .ConstantShapeError
termination_by t value => (sizeOf value, sizeOf t)
decreasing_by all_goals (simp_wf; omega)

/-- The loop over a struct literal's (key,value) pairs in
`render_const_value`: resolve each key to a field by name, fail with the
"has no field" error when no field matches, otherwise emit one keyed entry
per pair, in the literal's order. -/
def render_struct_entries (P : Program) (ind : Nat) (name : String)
    (fields : List TField) : List (CV × CV) → Except RenderError String
  | [] => .ok ""
  | (k, v) :: rest => do
      let key ← k.get_string
      match find_field_type fields key with
      | none => .error (.UnknownFieldError name key)
      | some ftype => do
          let r ← render_const_value P ind ftype v
          let restS ← render_struct_entries P ind name fields rest
          pure (indentStr ind ++ ":" ++ key ++ " " ++ r ++ "\n" ++ restS)
termination_by pairs => (sizeOf pairs, 0)
decreasing_by all_goals (simp_wf; omega)

/-- The loop over a map literal's (key,value) pairs in `render_const_value`:
render key and value against the map's key and value types, one `cl:cons`
form per pair, in the literal's order. -/
def render_map_entries (P : Program) (ind : Nat) (ktype vtype : TType) :
    List (CV × CV) → Except RenderError String
  | [] => .ok ""
  | (k, v) :: rest => do
      let rk ← render_const_value P ind ktype k
      let rv ← render_const_value P ind vtype v
      let restS ← render_map_entries P ind ktype vtype rest
      pure ("\n" ++ indentStr ind ++ "(cl:cons " ++ rk ++ " " ++ rv ++ ")" ++ restS)
termination_by pairs => (sizeOf pairs, 0)
decreasing_by all_goals (simp_wf; omega)

/-- The loop over a list or set literal's elements in `render_const_value`:
render each element against the element type, in the literal's order. -/
def render_list_entries (P : Program) (ind : Nat) (etype : TType) :
    List CV → Except RenderError String
  | [] => .ok ""
  | x :: rest => do
      let r ← render_const_value P ind etype x
      let restS ← render_list_entries P ind etype rest
      pure (indentStr ind ++ r ++ "\n" ++ restS)
termination_by xs => (sizeOf xs, 0)
decreasing_by all_goals (simp_wf; omega)
end

/-- The (label, value) pairs emitted by the loop of
`t_cl_generator::generate_enum`: a running `value` (started at `-1` by the
caller) is replaced by a label's explicit value when it has one
(`has_value()`), otherwise pre-incremented. -/
def enum_entries : List (String × Option Int) → Int → List (String × Int)
  | [], _ => []
  | (n, some x) :: rest, _ => (n, x) :: enum_entries rest x
  | (n, none) :: rest, value => (n, value + 1) :: enum_entries rest (value + 1)

/-- The body text of the enum form: one `("label" . value)` pair per entry,
entries after the first preceded by a newline, the loop's indentation and a
space. -/
def enum_body : List (String × Int) → Bool → String
  | [], _ => ""
  | e :: rest, first =>
      (if first then "" else "\n" ++ indentStr 1 ++ " ") ++
      "(\"" ++ e.1 ++ "\" . " ++ toString e.2 ++ ")" ++ enum_body rest false

/-- `t_cl_generator::generate_enum`: the full `(thrift:def-enum ...)` form
written to the types stream, the running value starting at `-1`. -/
def generate_enum (name : String) (constants : List (String × Option Int)) : String :=
  "(thrift:def-enum " ++ quoted name ++ "\n" ++ indentStr 1 ++ "(" ++
    enum_body (enum_entries constants (-1)) true ++ "))\n\n"

/-- `t_cl_generator::cl_docstring`: double quotes in documentation are
replaced by single quotes. -/
def cl_docstring (raw : String) : String :=
  raw.map (fun c => if c = Char.ofNat 34 then Char.ofNat 39 else c)

/-- The loop of `t_cl_generator::generate_cl_struct_internal`: one
`("name" default :type spec :id id [:documentation "..."])` entry per member
in declaration order, entries after the first separated by a newline, the
indentation and a space; a member without a default renders `nil`, one with a
default renders it through `render_const_value`. -/
def struct_internal_fields (P : Program) (ind : Nat) :
    List TField → Bool → Except RenderError String
  | [], _ => .ok ""
  | f :: rest, first => do
      let dv ← match f.fdefault with
        | some v => render_const_value P ind f.ftype v
        | none => pure "nil"
      let restS ← struct_internal_fields P ind rest false
      pure ((if first then "" else "\n" ++ indentStr ind ++ " ") ++
            "(" ++ quoted f.fname ++ " " ++ dv ++
            " :type " ++ typespec P f.ftype ++
            " :id " ++ toString f.fid ++
            (match f.fdoc with
             | some d => " :documentation \"" ++ cl_docstring d ++ "\""
             | none => "") ++ ")" ++ restS)

/-- `t_cl_generator::generate_cl_struct_internal`: the parenthesised field
list of a struct, exception, or a function's exception signature. -/
def generate_cl_struct_internal (P : Program) (ind : Nat) (members : List TField) :
    Except RenderError String := do
  pure ("(" ++ (← struct_internal_fields P ind members true) ++ ")")

/-- `t_cl_generator::generate_cl_struct`: the whole
`(thrift:def-struct ...)` / `(thrift:def-exception ...)` form, its name taken
from `type_name` and an optional docstring before the field list. -/
def generate_cl_struct (P : Program) (p : Option Program) (name : String)
    (members : List TField) (doc : Option String) (is_exception : Bool) :
    Except RenderError String := do
  let n := type_name P (.struct' p name members is_exception)
  let body ← generate_cl_struct_internal P 1 members
  pure ((if is_exception then "(thrift:def-exception " else "(thrift:def-struct ") ++
        quoted n ++ "\n" ++
        (match doc with
         | some d => indentStr 1 ++ "\"" ++ cl_docstring d ++ "\"\n"
         | none => "") ++
        indentStr 1 ++ body ++ ")\n\n")

/-- Modelled from the spec: a `t_function` — name, argument list and
exception set (both Struct-shaped field lists), return type, one-way flag. -/
structure TFunction where
  fnname : String
  arglist : List TField
  returntype : TType
  xceptions : List TField
  oneway : Bool

/-- The loop of `t_cl_generator::argument_list`: `(name typespec id)`
triples in declaration order, entries after the first preceded by a space. -/
def argument_entries (P : Program) : List TField → Bool → String
  | [], _ => ""
  | f :: rest, first =>
      (if first then "" else " ") ++
      "(" ++ quoted f.fname ++ " " ++ typespec P f.ftype ++ " " ++
      toString f.fid ++ ")" ++ argument_entries P rest false

/-- `t_cl_generator::argument_list`: the triples wrapped in parentheses. -/
def argument_list (P : Program) (fields : List TField) : String :=
  "(" ++ argument_entries P fields true ++ ")"

/-- `t_cl_generator::function_signature`: the argument list of the function's
arglist struct. -/
def function_signature (P : Program) (f : TFunction) : String :=
  argument_list P f.arglist

/-- The per-function segment of the loop in
`t_cl_generator::generate_service` (the generator is at indentation level 1
inside the `(thrift:def-service ...)` form): the `(:method ...)` entry with
its signature and return typespec, an `:exceptions` clause only when the
function declares at least one exception member, and an `:oneway t` marker
only when the function is one-way. -/
def generate_method_entry (P : Program) (f : TFunction) : Except RenderError String := do
  let core := "\n" ++ indentStr 1 ++ "(:method " ++ quoted f.fnname ++
              " (" ++ function_signature P f ++ " " ++ typespec P f.returntype ++ ")"
  let exc ← if f.xceptions.length > 0 then do
        pure ("\n" ++ indentStr 1 ++ " :exceptions " ++
              (← generate_cl_struct_internal P 1 f.xceptions))
      else pure ""
  pure (core ++ exc ++
        (if f.oneway then "\n" ++ indentStr 1 ++ " :oneway t" else "") ++ ")")

/-! Specification-side vocabulary used to state the claims. -/

/-- Sequencing used to state order preservation: render every element of a
list, left to right, collecting the results; the first failure aborts. -/
def renderEach {α : Type} (f : α → Except RenderError String) :
    List α → Except RenderError (List String)
  | [] => .ok []
  | x :: rest => do
      let r ← f x
      let rs ← renderEach f rest
      pure (r :: rs)

/-- Concatenation of a list of strings, in order. -/
def concatAll : List String → String
  | [] => ""
  | s :: rest => s ++ concatAll rest

/-- The keyed entry a struct literal's (key,value) pair contributes: key
resolved to a field by name, the value rendered against that field's
declared type. -/
def struct_entry_render (P : Program) (ind : Nat) (name : String)
    (fields : List TField) (kv : CV × CV) : Except RenderError String := do
  let key ← kv.1.get_string
  match find_field_type fields key with
  | none => .error (.UnknownFieldError name key)
  | some ftype => do
      let r ← render_const_value P ind ftype kv.2
      pure (indentStr ind ++ ":" ++ key ++ " " ++ r ++ "\n")

/-- The `cl:cons` entry a map literal's (key,value) pair contributes: key and
value rendered against the map's key and value types respectively. -/
def map_entry_render (P : Program) (ind : Nat) (ktype vtype : TType)
    (kv : CV × CV) : Except RenderError String := do
  let rk ← render_const_value P ind ktype kv.1
  let rv ← render_const_value P ind vtype kv.2
  pure ("\n" ++ indentStr ind ++ "(cl:cons " ++ rk ++ " " ++ rv ++ ")")

/-- Whether a constant value's variant is one the resolved declared type can
consume; every other combination is a shape mismatch. -/
def shape_compatible : TType → CV → Bool
  | .base .TString, .string _ => true
  | .base .TBool, .integer _ => true
  | .base .TByte, .integer _ => true
  | .base .TI16, .integer _ => true
  | .base .TI32, .integer _ => true
  | .base .TI64, .integer _ => true
  | .base .TDouble, .integer _ => true
  | .base .TDouble, .double _ => true
  | .enum' _ _ _, .integer _ => true
  | .struct' _ _ _ _, .map _ => true
  | .map _ _, .map _ => true
  | .list _, .list _ => true
  | .set _, .list _ => true
  | _, _ => false

/-- The length of a typedef chain, used to induct along `get_true_type`. -/
def typedef_depth : TType → Nat
  | .typedef _ _ u => typedef_depth u + 1
  | _ => 0

/-- The unqualified identifier `type_name` emits: the declared name,
lowercased for structs and exceptions. -/
def plain_name (t : TType) : String :=
  if t.isStructLike then lowercase t.tname else t.tname

/-! Reduction lemmas for the `Except` monad operations the renderer uses. -/

@[simp] theorem exc_bind_ok {α β : Type} (a : α) (f : α → Except RenderError β) :
    (Except.ok a >>= f) = f a := rfl

@[simp] theorem exc_bind_error {α β : Type} (e : RenderError) (f : α → Except RenderError β) :
    ((Except.error e : Except RenderError α) >>= f) = Except.error e := rfl

@[simp] theorem exc_fmap_ok {α β : Type} (f : α → β) (a : α) :
    (f <$> (Except.ok a : Except RenderError α)) = Except.ok (f a) := rfl

@[simp] theorem exc_fmap_error {α β : Type} (f : α → β) (e : RenderError) :
    (f <$> (Except.error e : Except RenderError α)) = Except.error e := rfl

@[simp] theorem exc_map_ok {α β : Type} (f : α → β) (a : α) :
    Except.map f (Except.ok a : Except RenderError α) = Except.ok (f a) := rfl

@[simp] theorem exc_map_error {α β : Type} (f : α → β) (e : RenderError) :
    Except.map f (Except.error e : Except RenderError α) = Except.error e := rfl

@[simp] theorem exc_pure {α : Type} (a : α) :
    (pure a : Except RenderError α) = Except.ok a := rfl

/-! Loop/`renderEach` correspondence for the three container loops of
`render_const_value`. -/

theorem render_list_entries_eq (P : Program) (ind : Nat) (etype : TType) (xs : List CV) :
    render_list_entries P ind etype xs =
      (renderEach (render_const_value P ind etype) xs).map
        (fun rs => concatAll (rs.map (fun r => indentStr ind ++ r ++ "\n"))) := by
  induction xs with
  | nil => rw [render_list_entries, renderEach]; rfl
  | cons x rest ih =>
      rw [render_list_entries, renderEach]
      cases hr : render_const_value P ind etype x with
      | error er => simp [hr]
      | ok r =>
          simp only [hr, exc_bind_ok]
          cases hm : renderEach (render_const_value P ind etype) rest with
          | error er => rw [ih, hm]; rfl
          | ok rs =>
              rw [ih, hm]
              simp [concatAll]

theorem render_map_entries_eq (P : Program) (ind : Nat) (ktype vtype : TType)
    (pairs : List (CV × CV)) :
    render_map_entries P ind ktype vtype pairs =
      (renderEach (map_entry_render P ind ktype vtype) pairs).map concatAll := by
  induction pairs with
  | nil => rw [render_map_entries, renderEach]; rfl
  | cons kv rest ih =>
      obtain ⟨k, v⟩ := kv
      rw [render_map_entries, renderEach]
      simp only [map_entry_render]
      cases hk : render_const_value P ind ktype k with
      | error er => simp [hk]
      | ok rk =>
          simp only [hk, exc_bind_ok]
          cases hv : render_const_value P ind vtype v with
          | error er => simp [hv]
          | ok rv =>
              simp only [hv, exc_bind_ok]
              cases hm : renderEach (map_entry_render P ind ktype vtype) rest with
              | error er => rw [ih, hm]; rfl
              | ok rs =>
                  rw [ih, hm]
                  simp [concatAll]

theorem render_struct_entries_eq (P : Program) (ind : Nat) (name : String)
    (fields : List TField) (pairs : List (CV × CV)) :
    render_struct_entries P ind name fields pairs =
      (renderEach (struct_entry_render P ind name fields) pairs).map concatAll := by
  induction pairs with
  | nil => rw [render_struct_entries, renderEach]; rfl
  | cons kv rest ih =>
      obtain ⟨k, v⟩ := kv
      rw [render_struct_entries, renderEach]
      simp only [struct_entry_render]
      cases hk : k.get_string with
      | error er => simp [hk]
      | ok key =>
          simp only [hk, exc_bind_ok]
          cases hf : find_field_type fields key with
          | none => simp
          | some ftype =>
              simp only []
              cases hr : render_const_value P ind ftype v with
              | error er => simp [hr]
              | ok r =>
                  simp only [hr, exc_bind_ok]
                  cases hm : renderEach (struct_entry_render P ind name fields) rest with
                  | error er => rw [ih, hm]; rfl
                  | ok rs =>
                      rw [ih, hm]
                      simp [concatAll]

/-- C1: for a struct or exception constant, `render_const_value` emits one
keyed entry per (key,value) pair of the literal's map, in the literal's
order (`renderEach` walks the pair list left to right), each value rendered
recursively against the declared type of the field whose name equals the
key (`struct_entry_render`). -/
theorem struct_const_rendering_follows_literal_order
    (P : Program) (ind : Nat) (p : Option Program) (name : String)
    (fields : List TField) (isX : Bool) (pairs : List (CV × CV)) :
    render_const_value P ind (.struct' p name fields isX) (.map pairs) =
      (renderEach (struct_entry_render P (ind + 1) name fields) pairs).map
        (fun entries =>
          (if isX then "(make-exception '" else "(make-instance '") ++
          lowercase name ++ " \n" ++ concatAll entries ++ indentStr (ind + 1) ++ ")") := by
  rw [render_const_value, render_struct_entries_eq]
  cases hm : renderEach (struct_entry_render P (ind + 1) name fields) pairs with
  | error er => rfl
  | ok es => rfl

/-- C2: for list, set and map constants, rendering is recursive and
order-preserving — `renderEach` renders the literal's elements (or pairs)
left to right against the container's element (or key/value) types — and
lists and sets use the distinct wrapper tokens `thrift:list` and
`thrift:set`. -/
theorem container_const_rendering_order_preserving
    (P : Program) (ind : Nat) (etype ktype vtype : TType)
    (xs : List CV) (pairs : List (CV × CV)) :
    (render_const_value P ind (.list etype) (.list xs) =
      (renderEach (render_const_value P (ind + 2) etype) xs).map
        (fun rs => "(thrift:list\n" ++
          concatAll (rs.map (fun r => indentStr (ind + 2) ++ r ++ "\n")) ++
          indentStr (ind + 2) ++ ")")) ∧
    (render_const_value P ind (.set etype) (.list xs) =
      (renderEach (render_const_value P (ind + 2) etype) xs).map
        (fun rs => "(thrift:set\n" ++
          concatAll (rs.map (fun r => indentStr (ind + 2) ++ r ++ "\n")) ++
          indentStr (ind + 2) ++ ")")) ∧
    (render_const_value P ind (.map ktype vtype) (.map pairs) =
      (renderEach (map_entry_render P (ind + 1) ktype vtype) pairs).map
        (fun es => "(thrift:map " ++ concatAll es ++ indentStr ind ++ ")")) ∧
    ("(thrift:list" : String) ≠ "(thrift:set" := by
  refine ⟨?_, ?_, ?_, by decide⟩
  · rw [render_const_value, render_list_entries_eq]
    cases hm : renderEach (render_const_value P (ind + 2) etype) xs with
    | error er => rfl
    | ok rs => rfl
  · rw [render_const_value, render_list_entries_eq]
    cases hm : renderEach (render_const_value P (ind + 2) etype) xs with
    | error er => rfl
    | ok rs => rfl
  · rw [render_const_value, render_map_entries_eq]
    cases hm : renderEach (map_entry_render P (ind + 1) ktype vtype) pairs with
    | error er => rfl
    | ok es => rfl

/-! Typedef chains. -/

theorem get_true_type_of_depth_zero (t : TType) (h : typedef_depth t = 0) :
    get_true_type t = t := by
  cases t with
  | typedef p n u => simp [typedef_depth] at h
  | base b => rfl
  | enum' p n cs => rfl
  | struct' p n fl isX => rfl
  | list e => rfl
  | set e => rfl
  | map k v => rfl

/-- A shape-incompatible literal makes `render_const_value` fail, for
non-typedef types. -/
theorem shape_error_head (P : Program) (ind : Nat) (t : TType) (v : CV)
    (h0 : typedef_depth t = 0) (h : shape_compatible t v = false) :
    render_const_value P ind t v = .error .ConstantShapeError := by
  cases t with
  | typedef p n u => simp [typedef_depth] at h0
  | base b =>
      cases b <;> cases v <;>
        simp_all [shape_compatible, render_const_value, CV.get_integer,
          CV.get_string, CV.get_double, CV.isInteger]
  | enum' p n cs =>
      cases v <;> simp_all [shape_compatible, render_const_value, CV.get_integer]
  | struct' p n fl isX =>
      cases v <;> simp_all [shape_compatible, render_const_value]
  | list e =>
      cases v <;> simp_all [shape_compatible, render_const_value]
  | set e =>
      cases v <;> simp_all [shape_compatible, render_const_value]
  | map kt vt =>
      cases v <;> simp_all [shape_compatible, render_const_value]

theorem shape_error_aux (P : Program) (ind : Nat) :
    ∀ d t v, typedef_depth t ≤ d → shape_compatible (get_true_type t) v = false →
      render_const_value P ind t v = .error .ConstantShapeError := by
  intro d
  induction d with
  | zero =>
      intro t v hd h
      have h0 : typedef_depth t = 0 := Nat.le_zero.mp hd
      rw [get_true_type_of_depth_zero t h0] at h
      exact shape_error_head P ind t v h0 h
  | succ k ih =>
      intro t v hd h
      cases t with
      | typedef p n u =>
          rw [render_const_value]
          refine ih u v ?_ (by simpa [get_true_type] using h)
          have : typedef_depth u + 1 ≤ k + 1 := by simpa [typedef_depth] using hd
          omega
      | base b =>
          exact shape_error_head P ind (.base b) v rfl
            (by rwa [get_true_type_of_depth_zero (.base b) rfl] at h)
      | enum' p n cs =>
          exact shape_error_head P ind (.enum' p n cs) v rfl
            (by rwa [get_true_type_of_depth_zero (.enum' p n cs) rfl] at h)
      | struct' p n fl isX =>
          exact shape_error_head P ind (.struct' p n fl isX) v rfl
            (by rwa [get_true_type_of_depth_zero (.struct' p n fl isX) rfl] at h)
      | list e =>
          exact shape_error_head P ind (.list e) v rfl
            (by rwa [get_true_type_of_depth_zero (.list e) rfl] at h)
      | set e =>
          exact shape_error_head P ind (.set e) v rfl
            (by rwa [get_true_type_of_depth_zero (.set e) rfl] at h)
      | map kt vt =>
          exact shape_error_head P ind (.map kt vt) v rfl
            (by rwa [get_true_type_of_depth_zero (.map kt vt) rfl] at h)

/-- C3: whenever the constant value's variant is incompatible with the
resolved declared type's variant, `render_const_value` fails with
`ConstantShapeError`. -/
theorem incompatible_constant_shape_error (P : Program) (ind : Nat) (t : TType) (v : CV)
    (h : shape_compatible (get_true_type t) v = false) :
    render_const_value P ind t v = .error .ConstantShapeError :=
  shape_error_aux P ind (typedef_depth t) t v (Nat.le_refl _) h

/-! Concatenating struct-literal entry lists. -/

theorem render_struct_entries_append (P : Program) (ind : Nat) (name : String)
    (fields : List TField) (l1 l2 : List (CV × CV)) :
    render_struct_entries P ind name fields (l1 ++ l2) =
      (do
        let a ← render_struct_entries P ind name fields l1
        let b ← render_struct_entries P ind name fields l2
        pure (a ++ b)) := by
  induction l1 with
  | nil =>
      rw [List.nil_append, render_struct_entries]
      cases hb : render_struct_entries P ind name fields l2 with
      | error e => rfl
      | ok b => simp
  | cons kv rest ih =>
      obtain ⟨k, v⟩ := kv
      rw [List.cons_append, render_struct_entries, render_struct_entries]
      cases hk : k.get_string with
      | error er => simp
      | ok key =>
          simp only [exc_bind_ok]
          cases hf : find_field_type fields key with
          | none => simp
          | some ftype =>
              simp only []
              cases hr : render_const_value P ind ftype v with
              | error er => simp
              | ok r =>
                  simp only [exc_bind_ok, ih]
                  cases ha : render_struct_entries P ind name fields rest with
                  | error er => simp
                  | ok a =>
                      cases hb : render_struct_entries P ind name fields l2 with
                      | error er => simp
                      | ok b => simp [String.append_assoc]

/-- C4: a struct or exception constant whose literal map contains a key that
matches no field name fails with `UnknownFieldError` carrying that key's
name; nothing is emitted for the whole literal. -/
theorem unknown_struct_key_fails (P : Program) (ind : Nat) (p : Option Program)
    (name : String) (fields : List TField) (isX : Bool) (s : String) (v : CV)
    (pre post : List (CV × CV)) (r : String)
    (hpre : render_struct_entries P (ind + 1) name fields pre = .ok r)
    (hs : find_field_type fields s = none) :
    render_const_value P ind (.struct' p name fields isX)
        (.map (pre ++ (CV.string s, v) :: post)) =
      .error (.UnknownFieldError name s) := by
  rw [render_const_value, render_struct_entries_append, hpre]
  rw [render_struct_entries]
  simp [CV.get_string, hs]

/-! Namespace qualification. -/

/-- C5: the resolved name carries a `<namespace>:` qualifier exactly when the
type's declaring program exists, differs from the program being generated,
and its (defaulted) `cl` package differs from the current program's package;
otherwise the bare identifier is emitted. -/
theorem type_name_namespace_qualification (P : Program) (t : TType) :
    (∀ program, t.prog = some program → program ≠ P →
        package_of program ≠ package_of P →
        type_name P t = package_of program ++ ":" ++ plain_name t) ∧
    (∀ program, t.prog = some program →
        (program = P ∨ package_of program = package_of P) →
        type_name P t = plain_name t) ∧
    (t.prog = none → type_name P t = plain_name t) := by
  refine ⟨?_, ?_, ?_⟩
  · intro program hp hne hpkg
    simp [type_name, tn_qualifier, hp, hne, hpkg, plain_name]
  · intro program hp hor
    rcases hor with he | hpkg
    · subst he
      simp [type_name, tn_qualifier, hp, plain_name]
    · by_cases he : program = P
      · subst he
        simp [type_name, tn_qualifier, hp, plain_name]
      · simp [type_name, tn_qualifier, hp, he, hpkg, plain_name]
  · intro hp
    simp [type_name, tn_qualifier, hp, plain_name]

/-! Typedef transparency of `typespec`. -/

theorem typespec_eq_true_type (P : Program) (t : TType) :
    typespec P t = typespec P (get_true_type t) := by
  have key : ∀ d t, typedef_depth t ≤ d → typespec P t = typespec P (get_true_type t) := by
    intro d
    induction d with
    | zero =>
        intro t hd
        rw [get_true_type_of_depth_zero t (Nat.le_zero.mp hd)]
    | succ k ih =>
        intro t hd
        cases t with
        | typedef p n u =>
            rw [typespec, get_true_type]
            refine ih u ?_
            have : typedef_depth u + 1 ≤ k + 1 := by simpa [typedef_depth] using hd
            omega
        | base b => rw [get_true_type_of_depth_zero (.base b) rfl]
        | enum' p n cs => rw [get_true_type_of_depth_zero (.enum' p n cs) rfl]
        | struct' p n fl isX => rw [get_true_type_of_depth_zero (.struct' p n fl isX) rfl]
        | list e => rw [get_true_type_of_depth_zero (.list e) rfl]
        | set e => rw [get_true_type_of_depth_zero (.set e) rfl]
        | map kt vt => rw [get_true_type_of_depth_zero (.map kt vt) rfl]
  exact key (typedef_depth t) t (Nat.le_refl _)

/-- C6: `typespec` applied to a typedef equals `typespec` applied to the
fully resolved underlying non-typedef type — typedefs are transparent to
type-spec serialization. -/
theorem typespec_typedef_transparent (P : Program) (p : Option Program)
    (n : String) (t : TType) :
    typespec P (.typedef p n t) = typespec P (get_true_type (.typedef p n t)) := by
  rw [typespec, get_true_type]
  exact typespec_eq_true_type P t

/-- C7: base-type constants render to their exact literal tokens — a boolean
renders the truth sentinel `t` for a positive integer literal and the falsity
sentinel `nil` otherwise; byte and integer kinds print the integer verbatim;
a double supplied as an integer token prints the integer verbatim and
otherwise prints the floating value's representation; a string prints as a
quoted literal. -/
theorem base_const_literal_tokens (P : Program) (ind : Nat) :
    (∀ i : Int, 0 < i →
        render_const_value P ind (.base .TBool) (.integer i) = .ok "t") ∧
    (∀ i : Int, i ≤ 0 →
        render_const_value P ind (.base .TBool) (.integer i) = .ok "nil") ∧
    (∀ i : Int, render_const_value P ind (.base .TByte) (.integer i) = .ok (toString i)) ∧
    (∀ i : Int, render_const_value P ind (.base .TI16) (.integer i) = .ok (toString i)) ∧
    (∀ i : Int, render_const_value P ind (.base .TI32) (.integer i) = .ok (toString i)) ∧
    (∀ i : Int, render_const_value P ind (.base .TI64) (.integer i) = .ok (toString i)) ∧
    (∀ i : Int, render_const_value P ind (.base .TDouble) (.integer i) = .ok (toString i)) ∧
    (∀ d : String, render_const_value P ind (.base .TDouble) (.double d) = .ok d) ∧
    (∀ s : String, render_const_value P ind (.base .TString) (.string s) =
        .ok ("\"" ++ s ++ "\"")) := by
  refine ⟨?_, ?_, ?_, ?_, ?_, ?_, ?_, ?_, ?_⟩
  · intro i h
    simp [render_const_value, CV.get_integer, h]
  · intro i h
    have : ¬ i > 0 := by omega
    simp [render_const_value, CV.get_integer, this]
  · intro i
    simp [render_const_value, CV.get_integer]
  · intro i
    simp [render_const_value, CV.get_integer]
  · intro i
    simp [render_const_value, CV.get_integer]
  · intro i
    simp [render_const_value, CV.get_integer]
  · intro i
    simp [render_const_value, CV.get_integer, CV.isInteger]
  · intro d
    simp [render_const_value, CV.get_double, CV.isInteger]
  · intro s
    simp [render_const_value, CV.get_string]

/-- C8: a service method entry carries an `:exceptions` field-list exactly
when the function declares at least one exception field (a zero-exception
function's entry omits the clause entirely), and carries the `:oneway t`
marker exactly when the function is one-way. -/
theorem service_method_entry_clauses (P : Program) (f : TFunction) :
    generate_method_entry P f =
      (if f.xceptions.isEmpty then Except.ok ""
       else (generate_cl_struct_internal P 1 f.xceptions).map
              (fun s => "\n" ++ indentStr 1 ++ " :exceptions " ++ s)).map
        (fun excPart =>
          "\n" ++ indentStr 1 ++ "(:method " ++ quoted f.fnname ++ " (" ++
          function_signature P f ++ " " ++ typespec P f.returntype ++ ")" ++ excPart ++
          (if f.oneway then "\n" ++ indentStr 1 ++ " :oneway t" else "") ++ ")") := by
  rw [generate_method_entry]
  rcases hx : f.xceptions with _ | ⟨fld, rest⟩
  · simp [hx]
  · simp only [hx, List.length_cons, List.isEmpty_cons, Bool.false_eq_true, if_false,
      Nat.succ_pos, if_pos]
    cases hg : generate_cl_struct_internal P 1 (fld :: rest) with
    | error e => simp [hg]
    | ok s => simp [hg]

/-! The running enum value. -/

theorem enum_entries_length (cs : List (String × Option Int)) :
    ∀ s, (enum_entries cs s).length = cs.length := by
  induction cs with
  | nil => intro s; rfl
  | cons c rest ih =>
      intro s
      obtain ⟨n, ov⟩ := c
      cases ov with
      | none => simp [enum_entries, ih]
      | some x => simp [enum_entries, ih]

theorem enum_entries_explicit (cs : List (String × Option Int)) :
    ∀ (s : Int) (i : Nat) (c : String × Option Int) (v : Int),
      cs[i]? = some c → c.2 = some v →
      (enum_entries cs s)[i]? = some (c.1, v) := by
  induction cs with
  | nil => intro s i c v h _; simp at h
  | cons hd rest ih =>
      intro s i c v h hv
      obtain ⟨n, ov⟩ := hd
      cases i with
      | zero =>
          rw [List.getElem?_cons_zero] at h
          injection h with h
          subst h
          have hv' : ov = some v := hv
          subst hv'
          rw [enum_entries, List.getElem?_cons_zero]
      | succ j =>
          rw [List.getElem?_cons_succ] at h
          cases ov with
          | none =>
              rw [enum_entries, List.getElem?_cons_succ]
              exact ih _ j c v h hv
          | some x =>
              rw [enum_entries, List.getElem?_cons_succ]
              exact ih _ j c v h hv

theorem enum_entries_first_implicit (n : String) (rest : List (String × Option Int))
    (s : Int) :
    (enum_entries ((n, none) :: rest) s)[0]? = some (n, s + 1) := by
  rw [enum_entries, List.getElem?_cons_zero]

theorem enum_entries_implicit_succ (cs : List (String × Option Int)) :
    ∀ (s : Int) (i : Nat) (c : String × Option Int) (p q : String × Int),
      cs[i + 1]? = some c → c.2 = none →
      (enum_entries cs s)[i]? = some p → (enum_entries cs s)[i + 1]? = some q →
      q = (c.1, p.2 + 1) := by
  induction cs with
  | nil => intro s i c p q h _ _ _; simp at h
  | cons hd rest ih =>
      intro s i c p q h hc hp hq
      obtain ⟨n0, ov0⟩ := hd
      have hrw : ∃ v0 : Int,
          enum_entries ((n0, ov0) :: rest) s = (n0, v0) :: enum_entries rest v0 := by
        cases ov0 with
        | none => exact ⟨s + 1, by rw [enum_entries]⟩
        | some x => exact ⟨x, by rw [enum_entries]⟩
      obtain ⟨v0, hv0⟩ := hrw
      rw [hv0] at hp hq
      rw [List.getElem?_cons_succ] at h
      cases i with
      | zero =>
          rw [List.getElem?_cons_zero] at hp
          injection hp with hp
          rw [List.getElem?_cons_succ] at hq
          cases rest with
          | nil => simp at h
          | cons c1 rest1 =>
              rw [List.getElem?_cons_zero] at h
              injection h with h
              subst h
              obtain ⟨m, om⟩ := c1
              have hc' : om = none := hc
              subst hc'
              rw [enum_entries, List.getElem?_cons_zero] at hq
              injection hq with hq
              subst hq
              rw [← hp]
      | succ j =>
          rw [List.getElem?_cons_succ] at hp hq
          exact ih v0 j c p q h hc hp hq

/-- C9: in `generate_enum`'s value computation (`enum_entries`, started at
`-1`), a label carrying an explicit value is emitted with that value, a label
without one is emitted with the previously emitted value plus one, and a
first label without an explicit value is emitted as `0`. -/
theorem enum_label_values (cs : List (String × Option Int)) :
    ((enum_entries cs (-1)).length = cs.length) ∧
    (∀ (i : Nat) (c : String × Option Int) (v : Int), cs[i]? = some c → c.2 = some v →
        (enum_entries cs (-1))[i]? = some (c.1, v)) ∧
    (∀ n rest, cs = (n, none) :: rest → (enum_entries cs (-1))[0]? = some (n, 0)) ∧
    (∀ (i : Nat) (c : String × Option Int) (p q : String × Int),
        cs[i + 1]? = some c → c.2 = none →
        (enum_entries cs (-1))[i]? = some p → (enum_entries cs (-1))[i + 1]? = some q →
        q = (c.1, p.2 + 1)) := by
  refine ⟨enum_entries_length cs (-1), enum_entries_explicit cs (-1), ?_,
    enum_entries_implicit_succ cs (-1)⟩
  intro n rest hcs
  subst hcs
  have h := enum_entries_first_implicit n rest (-1)
  norm_num at h ⊢
  exact h

/-! Lowercasing of struct and exception identifiers. -/

/-- C10: `type_name` lowercases struct and exception names before
qualification while enums, typedefs and base types keep their declared case,
`lowercase` maps every character through `Char.toLower`, and the lowercased
name is what reaches `typespec` output, struct-literal constant rendering and
struct/exception declarations. -/
theorem struct_exception_names_lowercased (P : Program) :
    (∀ p n fl isX, type_name P (TType.struct' p n fl isX) =
        tn_qualifier P (TType.struct' p n fl isX) ++ lowercase n) ∧
    (∀ p n cs, type_name P (TType.enum' p n cs) =
        tn_qualifier P (TType.enum' p n cs) ++ n) ∧
    (∀ p n u, type_name P (TType.typedef p n u) =
        tn_qualifier P (TType.typedef p n u) ++ n) ∧
    (∀ b, type_name P (TType.base b) = base_name b) ∧
    (∀ s, (lowercase s).data = s.data.map Char.toLower) ∧
    (∀ p n fl isX, typespec P (TType.struct' p n fl isX) =
        "(struct " ++ quoted (tn_qualifier P (TType.struct' p n fl isX) ++ lowercase n) ++ ")") ∧
    (∀ (ind : Nat) p n fl isX pairs out,
        render_const_value P ind (TType.struct' p n fl isX) (CV.map pairs) = .ok out →
        ∃ rest, out = (if isX then "(make-exception '" else "(make-instance '") ++
          lowercase n ++ " \n" ++ rest) ∧
    (∀ p n members doc isX out,
        generate_cl_struct P p n members doc isX = .ok out →
        ∃ rest, out = (if isX then "(thrift:def-exception " else "(thrift:def-struct ") ++
          quoted (tn_qualifier P (TType.struct' p n members isX) ++ lowercase n) ++ rest) := by
  refine ⟨?_, ?_, ?_, ?_, ?_, ?_, ?_, ?_⟩
  · intro p n fl isX
    simp [type_name, TType.isStructLike, TType.tname]
  · intro p n cs
    simp [type_name, TType.isStructLike, TType.tname]
  · intro p n u
    simp [type_name, TType.isStructLike, TType.tname]
  · intro b
    simp [type_name, tn_qualifier, TType.prog, TType.isStructLike, TType.tname]
  · intro s
    simp [lowercase, String.toLower, String.map_eq]
  · intro p n fl isX
    rw [typespec]
    simp [type_name, TType.isStructLike, TType.tname]
  · intro ind p n fl isX pairs out h
    rw [render_const_value] at h
    cases hb : render_struct_entries P (ind + 1) n fl pairs with
    | error e => rw [hb] at h; exact absurd h (by simp)
    | ok body =>
        rw [hb] at h
        simp only [exc_bind_ok, exc_pure, Except.ok.injEq] at h
        exact ⟨body ++ indentStr (ind + 1) ++ ")", by
          rw [← h]; simp [String.append_assoc]⟩
  · intro p n members doc isX out h
    rw [generate_cl_struct.eq_def] at h
    cases hb : generate_cl_struct_internal P 1 members with
    | error e => rw [hb] at h; exact absurd h (by simp)
    | ok body =>
        rw [hb] at h
        simp only [exc_bind_ok, exc_pure, Except.ok.injEq] at h
        subst h
        cases doc with
        | none =>
            refine ⟨"\n" ++ "" ++ indentStr 1 ++ body ++ ")\n\n", ?_⟩
            simp [type_name, TType.isStructLike, TType.tname, String.append_assoc]
        | some d =>
            refine ⟨"\n" ++ (indentStr 1 ++ "\"" ++ cl_docstring d ++ "\"\n") ++
              indentStr 1 ++ body ++ ")\n\n", ?_⟩
            simp [type_name, TType.isStructLike, TType.tname, String.append_assoc]

/-! Concrete programs and inputs witnessing the theorems above. -/

/-- A program being generated, with a declared `cl` namespace. -/
def progMain : Program := ⟨"main", [("cl", "mainpkg")]⟩

/-- A foreign program with a distinct `cl` namespace. -/
def progOther : Program := ⟨"other", [("cl", "otherpkg")]⟩

theorem incompatible_constant_shape_error_witness :
    shape_compatible (get_true_type (TType.list (TType.base TBase.TI32))) (CV.integer 5) = false ∧
    render_const_value progMain 0 (TType.list (TType.base TBase.TI32)) (CV.integer 5) =
      .error .ConstantShapeError :=
  ⟨rfl, incompatible_constant_shape_error progMain 0 _ _ rfl⟩

theorem unknown_struct_key_fails_witness :
    render_const_value progMain 0
        (TType.struct' none "S" [TField.mk "x" 1 (TType.base TBase.TI32) none none] false)
        (CV.map [(CV.string "y", CV.integer 1)]) =
      .error (.UnknownFieldError "S" "y") :=
  unknown_struct_key_fails progMain 0 none "S"
    [TField.mk "x" 1 (TType.base TBase.TI32) none none] false "y" (CV.integer 1)
    [] [] "" (by rw [render_struct_entries]) rfl

theorem type_name_namespace_qualification_witness :
    type_name progMain (TType.struct' (some progOther) "Foo" [] false) =
      package_of progOther ++ ":" ++
        plain_name (TType.struct' (some progOther) "Foo" [] false) :=
  (type_name_namespace_qualification progMain
      (TType.struct' (some progOther) "Foo" [] false)).1 progOther rfl
    (by decide) (by decide)

theorem base_const_literal_tokens_witness :
    ((0 : Int) < 3 ∧
      render_const_value progMain 0 (TType.base TBase.TBool) (CV.integer 3) = .ok "t") ∧
    ((0 : Int) ≤ 0 ∧
      render_const_value progMain 0 (TType.base TBase.TBool) (CV.integer 0) = .ok "nil") :=
  ⟨⟨by decide, (base_const_literal_tokens progMain 0).1 3 (by decide)⟩,
   ⟨by decide, (base_const_literal_tokens progMain 0).2.1 0 (by decide)⟩⟩

theorem enum_label_values_witness :
    ((enum_entries [("A", none), ("B", some (5 : Int)), ("C", none)] (-1))[0]? =
        some ("A", 0)) ∧
    ((enum_entries [("A", none), ("B", some (5 : Int)), ("C", none)] (-1))[1]? =
        some ("B", 5)) ∧
    ((("C", (6 : Int)) : String × Int) = ("C", (5 : Int) + 1)) :=
  ⟨(enum_label_values [("A", none), ("B", some (5 : Int)), ("C", none)]).2.2.1 "A"
      [("B", some (5 : Int)), ("C", none)] rfl,
   (enum_label_values [("A", none), ("B", some (5 : Int)), ("C", none)]).2.1 1
      ("B", some (5 : Int)) 5 rfl rfl,
   (enum_label_values [("A", none), ("B", some (5 : Int)), ("C", none)]).2.2.2 1
      ("C", none) ("B", 5) ("C", 6) rfl rfl rfl rfl⟩

theorem struct_exception_names_lowercased_witness :
    (type_name progMain (TType.struct' (some progOther) "Foo" [] false) =
        tn_qualifier progMain (TType.struct' (some progOther) "Foo" [] false) ++
          lowercase "Foo") ∧
    (∃ rest, "(make-instance '" ++ lowercase "person" ++ " \n" ++ "" ++ indentStr 1 ++ ")" =
        "(make-instance '" ++ lowercase "person" ++ " \n" ++ rest) :=
  ⟨(struct_exception_names_lowercased progMain).1 (some progOther) "Foo" [] false,
   (struct_exception_names_lowercased progMain).2.2.2.2.2.2.1 0 none "person" [] false []
      ("(make-instance '" ++ lowercase "person" ++ " \n" ++ "" ++ indentStr 1 ++ ")")
      (by rw [render_const_value, render_struct_entries]; rfl)⟩

end ThriftCl
